import Mathlib

/-!
Verification of the Image-Edit Adapter (`src/services/geminiService.ts`)

A shallow embedding of the repository's single non-trivial component: the
asynchronous adapter `editImageWithGemini`, which turns an `EditRequest`
(a data-URL image, a mime type and a free-text instruction) into a request
for a remote multimodal generation API and unpacks the response back into a
data URL, or fails with a human-readable message.

JavaScript semantics modelled explicitly:
* `String.prototype.split(c)` splits on *every* occurrence of the
  separator (`jsSplit`), and `[1]` indexing past the end yields
  `undefined` (`Option`).
* `String.prototype.trim` drops whitespace from both ends (`jsTrim`).
* optional chaining `a?.b?.c` is `Option.bind`.
* `x || fallback` on strings treats `undefined` and `""` as falsy
  (`jsOrElse`).
* a thrown value's `.message` may be absent (`JsError` with
  `Option String`).
* the remote call is a parameter `remote`; the adapter returns both its
  outcome and the list of outbound requests it issued, so that call-count
  claims are statable.
-/

/-- `EditRequest` from `src/types.ts`. -/
structure EditRequest where
  image : String
  mimeType : String
  instruction : String
deriving Repr, DecidableEq

/-- The `inlineData` object built for the outbound image part: its `data`
field is `request.image.split(',')[1]`, which in JS may be `undefined`. -/
structure OutInlineData where
  data : Option String
  mimeType : String
deriving Repr, DecidableEq

/-- One part of the outbound request: either an inline-image part or a text
part (the two object shapes `{inlineData: ...}` and `{text: ...}`). -/
inductive OutPart where
  | image (inlineData : OutInlineData)
  | text (text : String)
deriving Repr, DecidableEq

/-- The outbound request handed to `ai.models.generateContent`: a model
identifier and `contents.parts`. -/
structure GenRequest where
  model : String
  parts : List OutPart
deriving Repr, DecidableEq

/-- `inlineData` of a response part: declared mime type and base64 payload. -/
structure InlineData where
  mimeType : String
  data : String
deriving Repr, DecidableEq

/-- One part of a response candidate's content: may carry inline image data
and/or text; the adapter only tests `part.inlineData`. -/
structure RespPart where
  inlineData : Option InlineData
  text : Option String
deriving Repr, DecidableEq

/-- `candidate.content`: its `parts` field may be absent. -/
structure Content where
  parts : Option (List RespPart)
deriving Repr, DecidableEq

/-- One response candidate; its `content` field may be absent. -/
structure Candidate where
  content : Option Content
deriving Repr, DecidableEq

/-- The remote API response; its `candidates` field may be absent. -/
structure GenResponse where
  candidates : Option (List Candidate)
deriving Repr, DecidableEq

/-- A thrown JavaScript value as the adapter sees it: only its `message`
property matters, and it may be absent (or the empty string). -/
structure JsError where
  message : Option String
deriving Repr, DecidableEq

/-- JS `String.prototype.split` with a one-character separator, on the
character list: splits at every occurrence of `sep`; never returns `[]`. -/
def splitCh (sep : Char) : List Char → List (List Char)
  | [] => [[]]
  | c :: rest =>
    match splitCh sep rest with
    | [] => [[c]]
    | h :: t => if c = sep then [] :: h :: t else (c :: h) :: t

/-- JS `s.split(sep)` for a one-character separator. -/
def jsSplit (s : String) (sep : Char) : List String :=
  (splitCh sep s.data).map (fun l => ⟨l⟩)

/-- JS `String.prototype.trim`: drop whitespace from both ends. -/
def jsTrim (s : String) : String :=
  ⟨((s.data.dropWhile Char.isWhitespace).reverse.dropWhile
      Char.isWhitespace).reverse⟩

/-- JS `x || fallback` where `x` is a possibly-absent string: `undefined`
and `""` are falsy. -/
def jsOrElse (m : Option String) (fallback : String) : String :=
  match m with
  | some s => if s = "" then fallback else s
  | none => fallback

/-- The template literal around `request.instruction`, up to the
interpolation point (note the trailing space after "editor. "). -/
def promptLeading : String :=
  "\n    You are an expert product photo editor. \n    User instruction: "

/-- The template literal after the interpolation point. -/
def promptTrailing : String :=
  "\n    Please modify the provided image according to the instruction while maintaining high-quality resolution and professional studio aesthetics.\n    If the user asks to remove background, ensure a clean professional cutout.\n  "

/-- `enhancedPrompt` from `editImageWithGemini`: the instruction spliced
into the fixed template, then `.trim()`ed. -/
def enhancedPrompt (instruction : String) : String :=
  jsTrim (promptLeading ++ instruction ++ promptTrailing)

/-- The `imagePart` object: `data` is `request.image.split(',')[1]` and
`mimeType` is passed through verbatim. -/
def imagePart (request : EditRequest) : OutPart :=
  OutPart.image ⟨(jsSplit request.image ',')[1]?, request.mimeType⟩

/-- The `textPart` object carrying the enhanced prompt. -/
def textPart (request : EditRequest) : OutPart :=
  OutPart.text (enhancedPrompt request.instruction)

/-- The complete outbound request built by `editImageWithGemini`:
fixed model identifier, then the image part followed by the text part. -/
def geminiRequest (request : EditRequest) : GenRequest :=
  ⟨"gemini-2.5-flash-image", [imagePart request, textPart request]⟩

/-- The payload transmitted as the image: the `data` field of the outbound
`inlineData` object. -/
def sentPayload (request : EditRequest) : Option String :=
  (jsSplit request.image ',')[1]?

/-- The message of the `throw` on the no-candidates/content/parts path. -/
def noImageGeneratedMsg : String :=
  "No image was generated. Please try a different instruction."

/-- The message of the `throw` after the part loop finds no inline image. -/
def noImageDataMsg : String :=
  "AI responded but no image data was found in the response."

/-- The fallback message of the final catch block. -/
def fallbackMsg : String :=
  "Failed to process image. Ensure your API key is valid."

/-- `response.candidates?.[0]?.content?.parts`: the optional chain the
adapter reads; `none` exactly when JS sees `undefined` (candidates absent
or empty, content absent, or parts absent). -/
def firstParts (response : GenResponse) : Option (List RespPart) :=
  ((response.candidates.bind fun cs => cs[0]?).bind
    fun c => c.content).bind fun ct => ct.parts

/-- The `for (const part of parts)` loop body: return the `inlineData` of
the first part whose `inlineData` is truthy. -/
def findImagePart : List RespPart → Option InlineData
  | [] => none
  | p :: rest =>
    match p.inlineData with
    | some d => some d
    | none => findImagePart rest

/-- The `try` block after the outbound call has returned or thrown:
check the optional chain, scan for the first image part, rebuild the data
URL, or throw one of the two fixed errors. -/
def handleResponse (outcome : Except JsError GenResponse) :
    Except JsError String :=
  match outcome with
  | .error e => .error e
  | .ok response =>
    match firstParts response with
    | none => .error ⟨some noImageGeneratedMsg⟩
    | some parts =>
      match findImagePart parts with
      | some d => .ok ("data:" ++ d.mimeType ++ ";base64," ++ d.data)
      | none => .error ⟨some noImageDataMsg⟩

/-- The final `catch` block: every failure is rewrapped as
`new Error(error.message || "Failed to process image. Ensure your API key
is valid.")`; successes pass through. -/
def catchWrap (r : Except JsError String) : Except JsError String :=
  match r with
  | .ok s => .ok s
  | .error e => .error ⟨some (jsOrElse e.message fallbackMsg)⟩

/-- `editImageWithGemini`: build the two-part request, issue exactly one
outbound call (`remote`), unpack the response; every failure funnels
through the single catch block (`catchWrap`). The second component is the
trace of outbound requests issued by this invocation. -/
def editImageWithGemini (remote : GenRequest → Except JsError GenResponse)
    (request : EditRequest) : Except JsError String × List GenRequest :=
  (catchWrap (handleResponse (remote (geminiRequest request))),
   [geminiRequest request])

/-- Spec-side definition ("Modelled from the spec"): the substring of `s`
strictly after the *first* comma, absent when `s` has no comma. Used only
to compare the spec's description of prefix stripping with the code's
`split(',')[1]`. -/
def afterFirstComma (s : String) : Option String :=
  match s.data.dropWhile (fun c => c != ',') with
  | [] => none
  | _ :: rest => some ⟨rest⟩

/-- Spec-side constant: the fixed text preceding the instruction in the
transmitted prompt (after trimming). -/
def promptHead : String :=
  "You are an expert product photo editor. \n    User instruction: "

/-- Spec-side constant: the fixed text following the instruction in the
transmitted prompt (after trimming). -/
def promptTail : String :=
  "\n    Please modify the provided image according to the instruction while maintaining high-quality resolution and professional studio aesthetics.\n    If the user asks to remove background, ensure a clean professional cutout."

/-! Helper lemmas -/

theorem dropWhile_append_of_ne {α : Type} (p : α → Bool) (l₁ l₂ : List α)
    (h : l₁.dropWhile p ≠ []) :
    (l₁ ++ l₂).dropWhile p = l₁.dropWhile p ++ l₂ := by
  induction l₁ with
  | nil => simp at h
  | cons a t ih =>
    by_cases hp : p a
    · rw [List.cons_append, List.dropWhile_cons, if_pos hp]
      rw [List.dropWhile_cons, if_pos hp] at h ⊢
      exact ih h
    · rw [List.cons_append, List.dropWhile_cons, if_neg hp,
        List.dropWhile_cons, if_neg hp, List.cons_append]

theorem head_dropWhile_false {α : Type} (p : α → Bool) (l : List α)
    (c : α) (t : List α) (h : l.dropWhile p = c :: t) : p c = false := by
  induction l with
  | nil => simp [List.dropWhile] at h
  | cons a l ih =>
    rw [List.dropWhile_cons] at h
    by_cases hp : p a
    · exact ih (by rwa [if_pos hp] at h)
    · rw [if_neg hp] at h
      cases h
      exact Bool.eq_false_iff.mpr hp

theorem splitCh_cons (sep c : Char) (rest : List Char) :
    splitCh sep (c :: rest) =
      match splitCh sep rest with
      | [] => [[c]]
      | h :: t => if c = sep then [] :: h :: t else (c :: h) :: t := by
  rfl

theorem splitCh_ne_nil (sep : Char) (l : List Char) : splitCh sep l ≠ [] := by
  cases l with
  | nil => simp [splitCh]
  | cons c rest =>
    rw [splitCh_cons]
    cases h : splitCh sep rest with
    | nil => simp
    | cons a b => by_cases hc : c = sep <;> simp [hc]

theorem splitCh_of_not_mem (sep : Char) (l : List Char) (h : sep ∉ l) :
    splitCh sep l = [l] := by
  induction l with
  | nil => rfl
  | cons c rest ih =>
    have hc : ¬ c = sep := fun hc => h (hc ▸ List.mem_cons_self c rest)
    have hrest : sep ∉ rest := fun hm => h (List.mem_cons_of_mem c hm)
    rw [splitCh_cons, ih hrest]
    simp [hc]

theorem splitCh_append (sep : Char) (a b : List Char) (ha : sep ∉ a) :
    splitCh sep (a ++ sep :: b) = a :: splitCh sep b := by
  induction a with
  | nil =>
    rw [List.nil_append, splitCh_cons]
    cases h : splitCh sep b with
    | nil => exact absurd h (splitCh_ne_nil sep b)
    | cons x t => simp
  | cons c t ih =>
    have hc : ¬ c = sep := fun hc => ha (hc ▸ List.mem_cons_self c t)
    have ht : sep ∉ t := fun hm => ha (List.mem_cons_of_mem c hm)
    rw [List.cons_append, splitCh_cons, ih ht]
    simp [hc]

theorem findImagePart_first (pre : List RespPart) (q : RespPart)
    (rest : List RespPart) (d : InlineData)
    (hpre : ∀ p ∈ pre, p.inlineData = none) (hq : q.inlineData = some d) :
    findImagePart (pre ++ q :: rest) = some d := by
  induction pre with
  | nil => simp [findImagePart, hq]
  | cons a t ih =>
    have ha : a.inlineData = none := hpre a (List.mem_cons_self a t)
    rw [List.cons_append, findImagePart, ha]
    exact ih fun p hp => hpre p (List.mem_cons_of_mem a hp)

theorem findImagePart_none (ps : List RespPart)
    (h : ∀ p ∈ ps, p.inlineData = none) : findImagePart ps = none := by
  induction ps with
  | nil => rfl
  | cons a t ih =>
    have ha : a.inlineData = none := h a (List.mem_cons_self a t)
    rw [findImagePart, ha]
    exact ih fun p hp => h p (List.mem_cons_of_mem a hp)

theorem jsOrElse_ne_empty (m : Option String) (fb : String) (hfb : fb ≠ "") :
    jsOrElse m fb ≠ "" := by
  cases m with
  | none => exact hfb
  | some s =>
    by_cases hs : s = "" <;> simp [jsOrElse, hs, hfb]

theorem jsOrElse_of_ne (s : String) (fb : String) (hs : s ≠ "") :
    jsOrElse (some s) fb = s := by
  simp [jsOrElse, hs]

theorem editImage_snd (remote : GenRequest → Except JsError GenResponse)
    (request : EditRequest) :
    (editImageWithGemini remote request).snd = [geminiRequest request] := rfl

theorem editImage_fst_ok (remote : GenRequest → Except JsError GenResponse)
    (request : EditRequest) (s : String)
    (h : handleResponse (remote (geminiRequest request)) = .ok s) :
    (editImageWithGemini remote request).fst = .ok s := by
  unfold editImageWithGemini
  rw [h]
  rfl

theorem editImage_fst_err (remote : GenRequest → Except JsError GenResponse)
    (request : EditRequest) (e : JsError)
    (h : handleResponse (remote (geminiRequest request)) = .error e) :
    (editImageWithGemini remote request).fst =
      .error ⟨some (jsOrElse e.message fallbackMsg)⟩ := by
  unfold editImageWithGemini
  rw [h]
  rfl

/-! Claim theorems -/

/-- C3: for every `EditRequest`, if the remote response has zero
candidates, or its first candidate has no content or no parts, then
`editImageWithGemini` rejects with the fixed "No image was generated.
Please try a different instruction." message. -/
theorem c3_no_candidates_rejection
    (request : EditRequest) (remote : GenRequest → Except JsError GenResponse)
    (response : GenResponse)
    (hremote : remote (geminiRequest request) = .ok response)
    (h : response.candidates = none ∨ response.candidates = some [] ∨
      ∃ c rest, response.candidates = some (c :: rest) ∧
        (c.content = none ∨ ∃ ct, c.content = some ct ∧ ct.parts = none)) :
    (editImageWithGemini remote request).fst =
      .error ⟨some noImageGeneratedMsg⟩ := by
  have hfp : firstParts response = none := by
    rcases h with h | h | ⟨c, rest, hcs, h⟩
    · simp [firstParts, h]
    · simp [firstParts, h]
    · rcases h with h | ⟨ct, hct, hp⟩
      · simp [firstParts, hcs, h]
      · simp [firstParts, hcs, hct, hp]
  have hh : handleResponse (remote (geminiRequest request)) =
      .error ⟨some noImageGeneratedMsg⟩ := by
    rw [hremote]
    simp [handleResponse, hfp]
  rw [editImage_fst_err _ _ _ hh,
    jsOrElse_of_ne _ _ (by decide : noImageGeneratedMsg ≠ "")]

/-- Witness for C3 at a response with an absent candidate list. -/
theorem c3_no_candidates_rejection_witness :
    (editImageWithGemini (fun _ => Except.ok ⟨none⟩)
        ⟨"data:image/png;base64,AAAA", "image/png", "edit"⟩).fst =
      .error ⟨some noImageGeneratedMsg⟩ :=
  c3_no_candidates_rejection _ _ _ rfl (Or.inl rfl)

/-- C4: for every `EditRequest`, if the remote response's first candidate
has a non-empty parts list but no part carries inline image data, then
`editImageWithGemini` rejects with the fixed "AI responded but no image
data was found in the response." message — which survives the final
catch-and-rewrap unchanged and differs from the no-candidates message. -/
theorem c4_no_image_data_rejection
    (request : EditRequest) (remote : GenRequest → Except JsError GenResponse)
    (response : GenResponse) (ps : List RespPart)
    (hremote : remote (geminiRequest request) = .ok response)
    (hparts : firstParts response = some ps)
    (hne : ps ≠ [])
    (hnone : ∀ p ∈ ps, p.inlineData = none) :
    (editImageWithGemini remote request).fst = .error ⟨some noImageDataMsg⟩ ∧
      noImageDataMsg ≠ noImageGeneratedMsg := by
  refine ⟨?_, by decide⟩
  have hh : handleResponse (remote (geminiRequest request)) =
      .error ⟨some noImageDataMsg⟩ := by
    rw [hremote]
    simp [handleResponse, hparts, findImagePart_none ps hnone]
  rw [editImage_fst_err _ _ _ hh,
    jsOrElse_of_ne _ _ (by decide : noImageDataMsg ≠ "")]

/-- Witness for C4 at a response with one text-only part. -/
theorem c4_no_image_data_rejection_witness :
    (editImageWithGemini
        (fun _ => Except.ok ⟨some [⟨some ⟨some [⟨none, some "hello"⟩]⟩⟩]⟩)
        ⟨"data:image/png;base64,AAAA", "image/png", "edit"⟩).fst =
      .error ⟨some noImageDataMsg⟩ :=
  (c4_no_image_data_rejection
    ⟨"data:image/png;base64,AAAA", "image/png", "edit"⟩
    (fun _ => Except.ok ⟨some [⟨some ⟨some [⟨none, some "hello"⟩]⟩⟩]⟩)
    ⟨some [⟨some ⟨some [⟨none, some "hello"⟩]⟩⟩]⟩
    [⟨none, some "hello"⟩] rfl rfl (by decide) (by decide)).1

/-- C5: for every `EditRequest`, if the remote call itself raises, the
rejection message equals the underlying failure's message when that
message is present and non-empty, and otherwise equals the fixed fallback
message suggesting the API key may be invalid. -/
theorem c5_transport_error_message
    (request : EditRequest) (remote : GenRequest → Except JsError GenResponse)
    (e : JsError)
    (hremote : remote (geminiRequest request) = .error e) :
    (∀ s, e.message = some s → s ≠ "" →
        (editImageWithGemini remote request).fst = .error ⟨some s⟩) ∧
    ((e.message = none ∨ e.message = some "") →
        (editImageWithGemini remote request).fst =
          .error ⟨some fallbackMsg⟩) := by
  have hh : handleResponse (remote (geminiRequest request)) = .error e := by
    rw [hremote]
    rfl
  constructor
  · intro s hs hne
    rw [editImage_fst_err _ _ _ hh, hs, jsOrElse_of_ne _ _ hne]
  · intro h
    rw [editImage_fst_err _ _ _ hh]
    rcases h with h | h <;> simp [h, jsOrElse]

/-- Witness for C5: a raised error with a message propagates it; a raised
error without a message yields the fallback. -/
theorem c5_transport_error_message_witness :
    (editImageWithGemini (fun _ => Except.error ⟨some "Network failure"⟩)
        ⟨"data:image/png;base64,AAAA", "image/png", "edit"⟩).fst =
      .error ⟨some "Network failure"⟩ ∧
    (editImageWithGemini (fun _ => Except.error ⟨none⟩)
        ⟨"data:image/png;base64,AAAA", "image/png", "edit"⟩).fst =
      .error ⟨some fallbackMsg⟩ :=
  ⟨(c5_transport_error_message _ _ ⟨some "Network failure"⟩ rfl).1
      "Network failure" rfl (by decide),
   (c5_transport_error_message _ _ ⟨none⟩ rfl).2 (Or.inl rfl)⟩

/-- C6: every invocation of `editImageWithGemini` issues exactly one
outbound call, whose request targets the fixed model identifier and
consists of exactly two ordered parts: the inline-image part with the
stripped payload and the verbatim mime type, then the text part with the
enhanced instruction. -/
theorem c6_single_two_part_call
    (remote : GenRequest → Except JsError GenResponse)
    (request : EditRequest) :
    (editImageWithGemini remote request).snd = [geminiRequest request] ∧
    geminiRequest request = ⟨"gemini-2.5-flash-image",
      [OutPart.image ⟨sentPayload request, request.mimeType⟩,
       OutPart.text (enhancedPrompt request.instruction)]⟩ :=
  ⟨editImage_snd remote request, rfl⟩

/-- C10: every rejection of `editImageWithGemini` carries a present,
non-empty message. -/
theorem c10_rejection_message_nonempty
    (remote : GenRequest → Except JsError GenResponse)
    (request : EditRequest) (e : JsError)
    (h : (editImageWithGemini remote request).fst = .error e) :
    ∃ m, e.message = some m ∧ m ≠ "" := by
  cases hh : handleResponse (remote (geminiRequest request)) with
  | ok s =>
    rw [editImage_fst_ok _ _ _ hh] at h
    cases h
  | error e' =>
    rw [editImage_fst_err _ _ _ hh] at h
    cases h
    exact ⟨jsOrElse e'.message fallbackMsg, rfl,
      jsOrElse_ne_empty _ _ (by decide)⟩

/-- Witness for C10 at a message-less raised error. -/
theorem c10_rejection_message_nonempty_witness :
    ∃ m, (JsError.mk (some fallbackMsg)).message = some m ∧ m ≠ "" :=
  c10_rejection_message_nonempty (fun _ => Except.error ⟨none⟩)
    ⟨"data:image/png;base64,AAAA", "image/png", "edit"⟩
    ⟨some fallbackMsg⟩ rfl

/-- C1: for every `EditRequest` and every remote response whose first
candidate's parts contain an inline-image part, `editImageWithGemini`
resolves to `data:<mime>;base64,<payload>` built from exactly the first
image-bearing part, however many image-free parts precede it. -/
theorem c1_first_image_part_data_url
    (request : EditRequest) (remote : GenRequest → Except JsError GenResponse)
    (response : GenResponse) (pre rest : List RespPart) (q : RespPart)
    (d : InlineData)
    (hremote : remote (geminiRequest request) = .ok response)
    (hparts : firstParts response = some (pre ++ q :: rest))
    (hpre : ∀ p ∈ pre, p.inlineData = none)
    (hq : q.inlineData = some d) :
    (editImageWithGemini remote request).fst =
      .ok ("data:" ++ d.mimeType ++ ";base64," ++ d.data) := by
  have hh : handleResponse (remote (geminiRequest request)) =
      .ok ("data:" ++ d.mimeType ++ ";base64," ++ d.data) := by
    rw [hremote]
    simp [handleResponse, hparts, findImagePart_first pre q rest d hpre hq]
  exact editImage_fst_ok _ _ _ hh

/-- Witness for C1: the spec's example scenario, with one leading text
part before the image part. -/
theorem c1_first_image_part_data_url_witness :
    (editImageWithGemini
        (fun _ => Except.ok ⟨some [⟨some ⟨some [⟨none, some "Here it is"⟩,
          ⟨some ⟨"image/png", "BBBB"⟩, none⟩]⟩⟩]⟩)
        ⟨"data:image/png;base64,AAAA", "image/png", "Remove background"⟩).fst =
      .ok "data:image/png;base64,BBBB" :=
  c1_first_image_part_data_url
    ⟨"data:image/png;base64,AAAA", "image/png", "Remove background"⟩
    (fun _ => Except.ok ⟨some [⟨some ⟨some [⟨none, some "Here it is"⟩,
      ⟨some ⟨"image/png", "BBBB"⟩, none⟩]⟩⟩]⟩)
    ⟨some [⟨some ⟨some [⟨none, some "Here it is"⟩,
      ⟨some ⟨"image/png", "BBBB"⟩, none⟩]⟩⟩]⟩
    [⟨none, some "Here it is"⟩] [] ⟨some ⟨"image/png", "BBBB"⟩, none⟩
    ⟨"image/png", "BBBB"⟩ rfl rfl (by decide) rfl

/-- C7: the outcome of `editImageWithGemini` depends on the remote
response only through `candidates[0].content.parts`: two invocations
whose responses agree there are indistinguishable (result and trace);
later candidates are never consulted. -/
theorem c7_outcome_depends_only_on_first_parts
    (request : EditRequest)
    (remote₁ remote₂ : GenRequest → Except JsError GenResponse)
    (r₁ r₂ : GenResponse)
    (h₁ : remote₁ (geminiRequest request) = .ok r₁)
    (h₂ : remote₂ (geminiRequest request) = .ok r₂)
    (hagree : firstParts r₁ = firstParts r₂) :
    editImageWithGemini remote₁ request = editImageWithGemini remote₂ request := by
  unfold editImageWithGemini
  rw [h₁, h₂]
  have : handleResponse (.ok r₁) = handleResponse (.ok r₂) := by
    simp only [handleResponse, hagree]
  rw [this]

/-- Witness for C7: two responses sharing the first candidate but
differing in a second candidate produce identical outcomes. -/
theorem c7_outcome_depends_only_on_first_parts_witness :
    editImageWithGemini
        (fun _ => Except.ok ⟨some [⟨some ⟨some [⟨some ⟨"image/png", "XX"⟩, none⟩]⟩⟩,
          ⟨none⟩]⟩)
        ⟨"data:image/png;base64,AAAA", "image/png", "edit"⟩ =
      editImageWithGemini
        (fun _ => Except.ok ⟨some [⟨some ⟨some [⟨some ⟨"image/png", "XX"⟩, none⟩]⟩⟩]⟩)
        ⟨"data:image/png;base64,AAAA", "image/png", "edit"⟩ :=
  c7_outcome_depends_only_on_first_parts
    ⟨"data:image/png;base64,AAAA", "image/png", "edit"⟩ _ _
    ⟨some [⟨some ⟨some [⟨some ⟨"image/png", "XX"⟩, none⟩]⟩⟩, ⟨none⟩]⟩
    ⟨some [⟨some ⟨some [⟨some ⟨"image/png", "XX"⟩, none⟩]⟩⟩]⟩
    rfl rfl rfl

/-- C2 counterexample: when the payload itself contains a comma, the code
transmits `split(',')[1]` — the text between the first and second commas —
not the substring strictly after the first comma. -/
theorem c2_counterexample :
    sentPayload ⟨"data:image/png;base64,AA,BB", "image/png", "edit"⟩ =
      some "AA" ∧
    afterFirstComma "data:image/png;base64,AA,BB" = some "AA,BB" ∧
    sentPayload ⟨"data:image/png;base64,AA,BB", "image/png", "edit"⟩ ≠
      afterFirstComma "data:image/png;base64,AA,BB" := by
  refine ⟨by decide, by decide, by decide⟩

/-- C2 (amended): whenever the substring strictly after the first comma of
`request.image` contains no further comma — true of every base64 payload —
the transmitted payload equals it byte-for-byte. -/
theorem c2_amended_payload (request : EditRequest) (p : String)
    (hp : afterFirstComma request.image = some p)
    (hnc : ',' ∉ p.data) :
    sentPayload request = some p := by
  cases hdw : request.image.data.dropWhile (fun c => c != ',') with
  | nil =>
    rw [afterFirstComma, hdw] at hp
    cases hp
  | cons c rest =>
    rw [afterFirstComma, hdw] at hp
    have hrest : rest = p.data := by
      cases hp
      rfl
    have hc : c = ',' := by
      have := head_dropWhile_false _ _ _ _ hdw
      simpa using this
    have htw : ',' ∉ request.image.data.takeWhile (fun c => c != ',') := by
      intro hm
      have := List.mem_takeWhile_imp hm
      simp at this
    have himg : request.image.data =
        request.image.data.takeWhile (fun c => c != ',') ++ ',' :: p.data := by
      conv_lhs => rw [← List.takeWhile_append_dropWhile (fun c => c != ',')
        request.image.data]
      rw [hdw, hc, hrest]
    unfold sentPayload jsSplit
    rw [himg, splitCh_append _ _ _ htw, splitCh_of_not_mem _ _ hnc]
    rfl

/-- Witness for C2 (amended) at the spec's example data URL. -/
theorem c2_amended_payload_witness :
    afterFirstComma "data:image/png;base64,AAAA" = some "AAAA" ∧
    sentPayload ⟨"data:image/png;base64,AAAA", "image/png", "edit"⟩ =
      some "AAAA" :=
  ⟨by decide,
   c2_amended_payload ⟨"data:image/png;base64,AAAA", "image/png", "edit"⟩
     "AAAA" (by decide) (by decide)⟩

/-- C9: the adapter never validates the data-URL shape locally: with no
comma in `request.image` the outbound image part carries an absent `data`
field and the network call is still issued; conversely any image with a
comma yields a present payload, so under the well-formedness precondition
the no-payload branch is unreachable. -/
theorem c9_no_local_validation :
    (∀ (remote : GenRequest → Except JsError GenResponse)
        (request : EditRequest), ',' ∉ request.image.data →
        sentPayload request = none ∧
        (editImageWithGemini remote request).snd = [geminiRequest request]) ∧
    (∀ request : EditRequest, ',' ∈ request.image.data →
        (sentPayload request).isSome = true) := by
  constructor
  · intro remote request h
    refine ⟨?_, editImage_snd remote request⟩
    unfold sentPayload jsSplit
    rw [splitCh_of_not_mem _ _ h]
    rfl
  · intro request h
    cases hdw : request.image.data.dropWhile (fun c => c != ',') with
    | nil =>
      exfalso
      have hsplit := List.takeWhile_append_dropWhile (fun c => c != ',')
        request.image.data
      rw [hdw, List.append_nil] at hsplit
      rw [← hsplit] at h
      have := List.mem_takeWhile_imp h
      simp at this
    | cons c rest =>
      have hc : c = ',' := by
        have := head_dropWhile_false _ _ _ _ hdw
        simpa using this
      have htw : ',' ∉ request.image.data.takeWhile (fun c => c != ',') := by
        intro hm
        have := List.mem_takeWhile_imp hm
        simp at this
      have himg : request.image.data =
          request.image.data.takeWhile (fun c => c != ',') ++ ',' :: rest := by
        conv_lhs => rw [← List.takeWhile_append_dropWhile (fun c => c != ',')
          request.image.data]
        rw [hdw, hc]
      unfold sentPayload jsSplit
      rw [himg, splitCh_append _ _ _ htw]
      cases hr : splitCh ',' rest with
      | nil => exact absurd hr (splitCh_ne_nil ',' rest)
      | cons x t => simp

/-- Witness for C9: a comma-free image yields an absent payload while the
call is still issued; a well-formed data URL yields a present payload. -/
theorem c9_no_local_validation_witness :
    sentPayload ⟨"nocomma", "image/png", "edit"⟩ = none ∧
    (editImageWithGemini (fun _ => Except.ok ⟨none⟩)
        ⟨"nocomma", "image/png", "edit"⟩).snd =
      [geminiRequest ⟨"nocomma", "image/png", "edit"⟩] ∧
    (sentPayload ⟨"data:image/png;base64,AAAA", "image/png", "edit"⟩).isSome
      = true :=
  ⟨(c9_no_local_validation.1 (fun _ => Except.ok ⟨none⟩)
      ⟨"nocomma", "image/png", "edit"⟩ (by decide)).1,
   (c9_no_local_validation.1 (fun _ => Except.ok ⟨none⟩)
      ⟨"nocomma", "image/png", "edit"⟩ (by decide)).2,
   c9_no_local_validation.2
      ⟨"data:image/png;base64,AAAA", "image/png", "edit"⟩ (by decide)⟩

set_option maxHeartbeats 1000000 in
set_option maxRecDepth 100000 in
theorem enhancedPrompt_eq (instruction : String) :
    enhancedPrompt instruction = promptHead ++ instruction ++ promptTail := by
  apply String.ext
  show (((promptLeading ++ instruction ++ promptTrailing).data.dropWhile
      Char.isWhitespace).reverse.dropWhile Char.isWhitespace).reverse =
    (promptHead ++ instruction ++ promptTail).data
  rw [show (promptLeading ++ instruction ++ promptTrailing).data =
    promptLeading.data ++ (instruction.data ++ promptTrailing.data) by
      simp [String.data_append]]
  rw [dropWhile_append_of_ne _ _ _
    (by decide : promptLeading.data.dropWhile Char.isWhitespace ≠ [])]
  rw [show promptLeading.data.dropWhile Char.isWhitespace = promptHead.data
    from by decide]
  rw [List.reverse_append, List.reverse_append, List.append_assoc]
  rw [dropWhile_append_of_ne _ _ _
    (by decide : promptTrailing.data.reverse.dropWhile Char.isWhitespace ≠ [])]
  rw [show promptTrailing.data.reverse.dropWhile Char.isWhitespace =
    promptTail.data.reverse from by decide]
  rw [List.reverse_append, List.reverse_append, List.reverse_reverse,
    List.reverse_reverse, List.reverse_reverse]
  simp [String.data_append, List.append_assoc]

set_option maxRecDepth 100000 in
/-- C8: the transmitted text part is the user instruction wrapped in one
fixed template — a fixed prefix naming an expert "product photo editor",
then the literal instruction, then a fixed suffix hinting that
background-removal requests should produce a clean cutout — so two
requests differing only in the instruction transmit texts differing only
in the instruction substring. -/
theorem c8_prompt_is_fixed_template :
    (∀ request : EditRequest, textPart request =
        OutPart.text (promptHead ++ request.instruction ++ promptTail)) ∧
    "product photo editor".data <:+: promptHead.data ∧
    "ensure a clean professional cutout".data <:+: promptTail.data := by
  refine ⟨?_, by decide, by decide⟩
  intro request
  rw [textPart, enhancedPrompt_eq]
